import Mathlib

/-!
Verification development for the turing-backend e-commerce service.

The definitions below are a shallow embedding of the controllers in
`src/controllers/shoppingCart.controller.js` and of the token controller
(`TokenController.createToken` / `TokenController.validateToken`) together
with the route pipelines that wire them up.  The relational store that the
Sequelize models talk to is represented as an explicit `DB` state holding
lists of rows; each controller method becomes a function from a `DB` (plus
its request parameters) to a new `DB` and a response.

JavaScript numbers are IEEE-754 binary64 values.  Where the source performs
floating-point arithmetic (`parseFloat` and `+=` in `createOrder`), the
embedding uses `fl`, an exact rational model of round-to-nearest-even
binary64 rounding over the normal range (fuel bounded far beyond every
representable monetary magnitude).  SQL-side decimal computations
(`quantity * price` inside the query) are exact and stay exact rationals.
-/

set_option maxRecDepth 8000
set_option exponentiation.threshold 3000

namespace TuringBackend

/-- A row of the `product` table (the fields the cart controller reads). -/
structure Product where
  product_id : Nat
  name : String
  price : ℚ
  image : String
  deriving DecidableEq

/-- A row of the `shopping_cart` table. -/
structure CartItem where
  item_id : Nat
  cart_id : String
  product_id : Nat
  attributes : String
  quantity : Nat
  deriving DecidableEq

/-- A row of the `order` table (fields set by `createOrder`). -/
structure Order where
  order_id : Nat
  customer_id : Nat
  total_amount : ℚ
  shipping_id : Nat
  tax_id : Nat
  deriving DecidableEq

/-- A row of the `order_detail` table. -/
structure OrderDetail where
  item_id : Nat
  order_id : Nat
  product_id : Nat
  attributes : String
  product_name : String
  quantity : Nat
  unit_cost : ℚ
  deriving DecidableEq

/-- The relational store: the tables the shopping-cart controller touches,
plus autoincrement counters for the generated primary keys. -/
structure DB where
  products : List Product
  cartItems : List CartItem
  orders : List Order
  orderDetails : List OrderDetail
  nextItemId : Nat
  nextOrderId : Nat
  nextDetailId : Nat
  deriving DecidableEq

/-- Round the positive fraction `a / b` to the nearest natural number, ties
to even (IEEE-754 default rounding applied to an exact scaled significand). -/
def roundNearestEven (a b : ℕ) : ℕ :=
  let q := a / b
  let r := a % b
  if 2 * r < b then q
  else if b < 2 * r then q + 1
  else if q % 2 = 0 then q else q + 1

/-- Floor of the binary logarithm of a positive natural number, by a fixed
eleven-step binary search (adequate for magnitudes below `2 ^ 2048`, far
beyond the normal binary64 range). -/
def log2floor (a : ℕ) : ℕ :=
  let f := fun (e : ℕ) (k : ℕ) => if 2 ^ (e + k) ≤ a then e + k else e
  f (f (f (f (f (f (f (f (f (f (f 0 1024) 512) 256) 128) 64) 32) 16) 8) 4) 2) 1

/-- Multiply the fraction `a / b` by `2 ^ s`, as a pair of naturals. -/
def shiftScale (a b : ℕ) (s : ℤ) : ℕ × ℕ :=
  match s with
  | .ofNat n => (a * 2 ^ n, b)
  | .negSucc n => (a, b * 2 ^ (n + 1))

/-- Binary64 rounding of the positive fraction `a / b`: shift into the
binade `[2 ^ 52, 2 ^ 53)`, round the 53-bit significand to nearest (ties to
even), and undo the shift. -/
def flPos (a b : ℕ) : ℚ :=
  let s0 : ℤ := 52 + (log2floor b : ℤ) - (log2floor a : ℤ)
  let p0 := shiftScale a b s0
  let s : ℤ := if p0.1 < 4503599627370496 * p0.2 then s0 + 1 else s0
  let p := shiftScale a b s
  let m := roundNearestEven p.1 p.2
  if s ≤ 0 then mkRat (m * 2 ^ (-s).toNat : ℕ) 1 else mkRat (m : ℕ) (2 ^ s.toNat)

/-- The binary64 value nearest to an exact rational: the model of what a
JavaScript number stores, and hence of `parseFloat` applied to an exact
decimal string and of the result of each `+` between JS numbers.
(Overflow and subnormals lie far outside the monetary magnitudes involved
and are not modelled.) -/
def fl (q : ℚ) : ℚ :=
  if q.num = 0 then 0
  else if q.num < 0 then -(flPos q.num.natAbs q.den)
  else flPos q.num.natAbs q.den

/-- Row shape produced by the `ShoppingCart.findAll` query in `getCart` /
`createOrder`: the cart row inner-joined (`required: true`) with its
`Product`, with `subtotal` computed inside the query (`quantity * price`,
exact decimal SQL arithmetic). -/
structure JoinedCartRow where
  item_id : Nat
  name : String
  attributes : String
  product_id : Nat
  price : ℚ
  quantity : Nat
  image : String
  subtotal : ℚ
  deriving DecidableEq

/-- The `ShoppingCart.findAll({ where: { cart_id }, include: [Product
required] })` query of `createOrder` and `getCart`: every cart row of the
given `cart_id` that has a matching product, joined with the product's
display fields.  `findAll` returns an array (possibly empty), never null. -/
def findAllJoined (db : DB) (cart_id : String) : List JoinedCartRow :=
  db.cartItems.filterMap (fun c =>
    if c.cart_id = cart_id then
      match db.products.find? (fun p => p.product_id == c.product_id) with
      | some p =>
          some ⟨c.item_id, p.name, c.attributes, c.product_id, p.price,
                c.quantity, p.image, (c.quantity : ℚ) * p.price⟩
      | none => none
    else none)

/-- JavaScript truthiness of `!cart` when `cart` is an array: arrays are
objects and objects are always truthy, so the negation is always `false` —
the guard `if (!cart) throw new Error('Cart not found')` in `createOrder`
can never fire, not even for an empty cart. -/
def jsArrayFalsy (l : List JoinedCartRow) : Bool :=
  match l with
  | _ => false

/-- The `total_amount` computation of `createOrder`:
`cart.reduce((total, item) => total += parseFloat(item.subtotal), 0)`.
Each subtotal string is parsed to the nearest binary64 (`fl`), and every
`+=` is a binary64 addition, so the running total is rounded at each step. -/
def totalAmountJs (cart : List JoinedCartRow) : ℚ :=
  cart.foldl (fun total item => fl (total + fl item.subtotal)) 0

/-- Errors surfaced through `next(error)` (caught by each controller's
`try`/`catch`) or produced by the jwt library. -/
inductive JwtError
  | mustBeProvided
  | invalidSignature
  | expired
  deriving DecidableEq

/-- A JavaScript-level failure handed to the error middleware. -/
inductive JsError
  | typeError
  | jwt (e : JwtError)
  | invalidToken
  | cartNotFound
  | productMissing
  deriving DecidableEq

/-- Outcome of a controller call: either a success value (the controller set
`res.locals` and called `next()`) or an error passed to `next(error)`. -/
inductive JsOutcome (α : Type)
  | ok (value : α)
  | error (e : JsError)
  deriving DecidableEq

/-- State and response of one `createOrder` invocation. -/
structure OrderResult where
  db : DB
  response : JsOutcome Nat

/-- `ShoppingCartController.createOrder`, with fault injection for the
OrderDetail writes.  The source wraps nothing in a transaction: the order
row is saved first (`order.save()`), and the detail rows are then written
from a `cart.forEach(async ...)` loop.  `forEach` does not await the async
callbacks and the surrounding `try`/`catch` therefore never observes their
rejections, so a failed `orderDetail.save()` (`detailSaveFails i = true`
for the `i`-th cart line) merely loses that one row: the order row and
every other detail row stay persisted and the controller still answers
`{ order_id }` with status `true`. -/
def createOrder (db : DB) (cart_id : String) (shipping_id tax_id customer_id : Nat)
    (detailSaveFails : Nat → Bool) : OrderResult :=
  let cart := findAllJoined db cart_id
  if jsArrayFalsy cart then
    { db := db, response := .error .cartNotFound }
  else
    let total := totalAmountJs cart
    let oid := db.nextOrderId
    let db1 : DB :=
      { db with
        orders := db.orders ++ [⟨oid, customer_id, total, shipping_id, tax_id⟩]
        nextOrderId := oid + 1 }
    let newDetails := cart.enum.filterMap (fun pair =>
      if detailSaveFails pair.1 then none
      else
        some (⟨db1.nextDetailId + pair.1, oid, pair.2.product_id, pair.2.attributes,
               pair.2.name, pair.2.quantity, pair.2.price⟩ : OrderDetail))
    { db :=
        { db1 with
          orderDetails := db1.orderDetails ++ newDetails
          nextDetailId := db1.nextDetailId + cart.length }
      response := .ok oid }

/-- `ShoppingCartController.emptyCart`: `findOne({ where: { cart_id } })`
followed by `cart.destroy()` — it looks up a single row and deletes that
row (by its primary key), leaving any further rows of the same cart in
place; when no row matches it does nothing.  Either way it responds with
status `true` and `[]`. -/
def emptyCart (db : DB) (cart_id : String) : DB :=
  match db.cartItems.find? (fun c => c.cart_id == cart_id) with
  | none => db
  | some c => { db with cartItems := db.cartItems.filter (fun x => x.item_id ≠ c.item_id) }

/-- The `findCreateFind` lookup key of `addItemToCart`: a cart row matching
the (cart_id, product_id, attributes) triple. -/
def matchKey (cart_id : String) (product_id : Nat) (attributes : String) (c : CartItem) : Bool :=
  c.cart_id == cart_id && c.product_id == product_id && c.attributes == attributes

/-- `ShoppingCartController.addItemToCart`:
`findCreateFind({ where: key, defaults: { ..., quantity: 1 }, include:
[Product required] })`.  The find is an inner join, so it only hits rows
whose product exists; when it finds a row the controller increments its
quantity by one and saves; when it finds none, `findCreateFind` inserts the
defaults row with quantity 1.  On a created row whose product is absent the
join fields are not populated and reading `dataValues.Product.price` throws
(caught and passed to `next`); the inserted row nevertheless remains (no
uniqueness constraint of the excluded schema layer is assumed here). -/
def addItemToCart (db : DB) (cart_id : String) (product_id : Nat) (attributes : String) :
    DB × JsOutcome CartItem :=
  match db.cartItems.find? (fun c => matchKey cart_id product_id attributes c &&
      db.products.any (fun p => p.product_id == product_id)) with
  | some c =>
    ({ db with
       cartItems := db.cartItems.map (fun x =>
         if x.item_id == c.item_id then { c with quantity := c.quantity + 1 } else x) },
     .ok { c with quantity := c.quantity + 1 })
  | none =>
    if db.products.any (fun p => p.product_id == product_id) then
      ({ db with
         cartItems := db.cartItems ++ [⟨db.nextItemId, cart_id, product_id, attributes, 1⟩]
         nextItemId := db.nextItemId + 1 },
       .ok ⟨db.nextItemId, cart_id, product_id, attributes, 1⟩)
    else
      ({ db with
         cartItems := db.cartItems ++ [⟨db.nextItemId, cart_id, product_id, attributes, 1⟩]
         nextItemId := db.nextItemId + 1 },
       .error .productMissing)

/-- `n` sequential `addItemToCart` calls with a fixed key, threading the
store state (each call completes before the next starts). -/
def addItemN (cart_id : String) (product_id : Nat) (attributes : String) : Nat → DB → DB
  | 0, db => db
  | n + 1, db => addItemN cart_id product_id attributes n
      (addItemToCart db cart_id product_id attributes).1

/-- Row shape returned by `getOrderSummary`: the query excludes `item_id`
and adds `subtotal`, computed inside the query as `quantity * unit_cost`. -/
structure SummaryRow where
  order_id : Nat
  product_id : Nat
  attributes : String
  product_name : String
  quantity : Nat
  unit_cost : ℚ
  subtotal : ℚ
  deriving DecidableEq

/-- `ShoppingCartController.getOrderSummary`: `OrderDetail.findAll({ where:
{ order_id }, include: [{ model: Order, required: true, where:
{ customer_id } }] })` — the ownership check is the inner join condition of
the retrieval query itself, so detail rows of an order owned by a different
customer are filtered out inside the query, not afterwards. -/
def getOrderSummary (db : DB) (order_id customer_id : Nat) : List SummaryRow :=
  (db.orderDetails.filter (fun d =>
      d.order_id == order_id &&
      db.orders.any (fun o => o.order_id == d.order_id && o.customer_id == customer_id))).map
    (fun d => ⟨d.order_id, d.product_id, d.attributes, d.product_name, d.quantity,
               d.unit_cost, (d.quantity : ℚ) * d.unit_cost⟩)

/-- Character-level model of JavaScript `String.prototype.split` with a
single-character separator string. -/
def splitChars (sep : Char) : List Char → List (List Char)
  | [] => [[]]
  | c :: cs =>
    let r := splitChars sep cs
    if c = sep then [] :: r else (c :: r.headD []) :: r.tail

/-- JavaScript `header.split(' ')`, producing Lean strings. -/
def jsSplitSpace (s : String) : List String :=
  (splitChars ' ' s.data).map (fun l => String.mk l)

/-- The `auth2` rule's regex `/^Bearer .+/`: the string starts with
`Bearer ` followed by at least one character that is not a line
terminator. -/
def bearerMatch (s : String) : Bool :=
  match s.data with
  | 'B' :: 'e' :: 'a' :: 'r' :: 'e' :: 'r' :: ' ' :: c :: _ => !(c = '\n' || c = '\r')
  | _ => false

/-- Payload and expiry of a token signed with the server's `JWT_KEY`.
`data` is the `{ data: customer_id }` claim; `none` models a payload whose
`data` field is missing or null.  `exp` is the expiry timestamp in epoch
seconds (issue time plus the configured TTL). -/
structure SignedClaims where
  data : Option Nat
  exp : Nat
  deriving DecidableEq

/-- Symbolic model of the signature scheme: the association of token strings
that carry a valid signature under the server key to their claims.  A string
outside the environment fails `jwt.verify` with an invalid-signature error
(unforgeability of the HMAC); `jwt.sign` extends the environment. -/
def TokenEnv : Type := List (String × SignedClaims)

/-- `jwt.verify(token, JWT_KEY)` at clock time `now`: a missing or empty
token string raises `jwt must be provided`; an unknown string fails the
signature check; a known one fails with `TokenExpiredError` when its expiry
has passed (`now ≥ exp`), and otherwise yields its payload. -/
def jwtVerify (env : TokenEnv) (now : Nat) (tok : Option String) : Except JwtError SignedClaims :=
  match tok with
  | none => .error .mustBeProvided
  | some s =>
    if s = "" then .error .mustBeProvided
    else
      match List.lookup s env with
      | none => .error .invalidSignature
      | some claims => if claims.exp ≤ now then .error .expired else .ok claims

/-- `TokenController.validateToken`: reads the `user-key` header; a missing
header makes `tokenHeader.split(' ')` throw a `TypeError` (caught by the
`try`/`catch` and passed to `next`); otherwise the token is the part after
the first space, `jwt.verify` errors are caught and forwarded, a falsy
`data` claim (`0`, missing, null) raises `new Error('Invalid token')`, and
a truthy one is stored as `res.locals.customer_id`. -/
def validateToken (env : TokenEnv) (now : Nat) (userKey : Option String) : JsOutcome Nat :=
  match userKey with
  | none => .error .typeError
  | some h =>
    match jwtVerify env now ((jsSplitSpace h).get? 1) with
    | .error e => .error (.jwt e)
    | .ok claims =>
      match claims.data with
      | none => .error .invalidToken
      | some 0 => .error .invalidToken
      | some (n + 1) => .ok (n + 1)

/-- `TokenController.createToken`: `jwt.sign({ data: customer_id }, JWT_KEY,
{ expiresIn: ttl })` at clock time `now` yields some signed string `tok`
(opaque to the model); the controller responds with the header value
`Bearer tok`, and the signing environment now maps `tok` to the claims. -/
def createToken (env : TokenEnv) (customer_id now ttl : Nat) (tok : String) :
    String × TokenEnv :=
  ("Bearer " ++ tok, (tok, ⟨some customer_id, now + ttl⟩) :: env)

/-- The `auth` validation rule: `header('user-key').exists({ checkFalsy:
true, checkNull: true })` — fails on a missing or empty header. -/
def ruleAuth (userKey : Option String) : Bool :=
  match userKey with
  | none => false
  | some h => !(h == "")

/-- The `auth2` validation rule: `header('user-key').custom(value =>
value.match(/^Bearer .+/))` — fails when the header does not match the
bearer pattern (or is absent, making the custom callback throw). -/
def ruleAuth2 (userKey : Option String) : Bool :=
  match userKey with
  | none => false
  | some h => bearerMatch h

/-- What one request produces at the end of a route's middleware chain. -/
inductive PipelineOutcome
  | validationError (code : String)
  | handledError (e : JsError)
  | success (customer_id : Nat)
  deriving DecidableEq

/-- Route pipeline of the customer routes (`/customer`, `/customers/...`):
`[ruleSets.auth, ruleSets.auth2]`, then `validateFields` (which reports the
first failed rule's code), then `TokenController.validateToken`. -/
def rulesFirstPipeline (env : TokenEnv) (now : Nat) (userKey : Option String) :
    PipelineOutcome :=
  if !ruleAuth userKey then .validationError "AUT_01"
  else if !ruleAuth2 userKey then .validationError "AUT_02"
  else
    match validateToken env now userKey with
    | .error e => .handledError e
    | .ok cid => .success cid

/-- Route pipeline of `router.get('/orders/:order_id(\\d+)', ...)`:
`TokenController.validateToken` is installed BEFORE the `[auth, auth2]`
rules and `validateFields`, so token validation runs first and its
`next(error)` short-circuits past the scheme checks. -/
def orderRoutePipeline (env : TokenEnv) (now : Nat) (userKey : Option String) :
    PipelineOutcome :=
  match validateToken env now userKey with
  | .error e => .handledError e
  | .ok cid =>
    if !ruleAuth userKey then .validationError "AUT_01"
    else if !ruleAuth2 userKey then .validationError "AUT_02"
    else .success cid

/-! Helper lemmas: put the `@[irreducible]` field operations of `ℚ` into the
computable normal form `mkRat` of numerator/denominator projections, so that
concrete runs of the embedded controllers can be settled by `decide`. -/

/-- Multiplication on `ℚ` in `mkRat` normal form. -/
theorem ratMulMk (x y : ℚ) : x * y = mkRat (x.num * y.num) (x.den * y.den) := by
  rw [Rat.mul_def, Rat.normalize_eq_mkRat]

/-- Casting a natural number to `ℚ` in `mkRat` normal form. -/
theorem ratCastMk (n : ℕ) : (n : ℚ) = mkRat n 1 := by
  rw [Rat.mkRat_eq_div]
  norm_num

/-! Concrete store fixtures used by the concrete-run theorems. -/

/-- A store whose cart `"abc"` holds two lines: product 1 at price 0.10 and
product 2 at price 0.20, one unit each. -/
def dbPair : DB :=
  { products := [⟨1, "p1", mkRat 1 10, "img1"⟩, ⟨2, "p2", mkRat 2 10, "img2"⟩]
    cartItems := [⟨1, "abc", 1, "Size,M", 1⟩, ⟨2, "abc", 2, "Size,M", 1⟩]
    orders := []
    orderDetails := []
    nextItemId := 3
    nextOrderId := 1
    nextDetailId := 1 }

/-- A store whose cart `"abc"` holds three lines (products 1, 2, 3). -/
def dbTriple : DB :=
  { products := [⟨1, "p1", mkRat 1 1, "img1"⟩, ⟨2, "p2", mkRat 2 1, "img2"⟩,
                 ⟨3, "p3", mkRat 3 1, "img3"⟩]
    cartItems := [⟨1, "abc", 1, "", 1⟩, ⟨2, "abc", 2, "", 2⟩, ⟨3, "abc", 3, "", 3⟩]
    orders := []
    orderDetails := []
    nextItemId := 4
    nextOrderId := 1
    nextDetailId := 1 }

/-- A store with one product and an empty cart table. -/
def dbNoItems : DB :=
  { products := [⟨1, "p1", mkRat 1 10, "img1"⟩]
    cartItems := []
    orders := []
    orderDetails := []
    nextItemId := 1
    nextOrderId := 1
    nextDetailId := 1 }

/-- C1.  The spec demands that steps 3-4 of checkout be atomic: if any
OrderDetail write fails partway, neither the Order row nor any OrderDetail
rows of the attempt may remain, and the underlying error must be returned.
The source wraps nothing in a transaction and fires the detail saves from an
un-awaited `forEach(async ...)`: injecting a failure into the save of the
second of three detail rows leaves the Order row persisted, leaves the
first and third detail rows persisted, and the controller still responds
success with the new order id — the spec is the stated intent (§4.3 step 5)
and the missing transaction is the code's slip. -/
theorem c1_partial_write_persists :
    (createOrder dbTriple "abc" 1 1 7 (fun i => i == 1)).db.orders.length = 1 ∧
    ((createOrder dbTriple "abc" 1 1 7 (fun i => i == 1)).db.orderDetails.map
        OrderDetail.product_id) = [1, 3] ∧
    (createOrder dbTriple "abc" 1 1 7 (fun i => i == 1)).response = .ok 1 := by
  refine ⟨by decide, by decide, by decide⟩

/-- C2.  The spec says checkout of a cart id with zero CartItem rows fails
with `NotFoundError` and creates no Order.  `findAll` returns `[]` for such
a cart id and an empty array is truthy in JavaScript, so the guard
`if (!cart) throw new Error('Cart not found')` never fires: the code
creates an Order with `total_amount` 0 and responds success — contradicting
both the spec and the code's own dead guard. -/
theorem c2_empty_cart_creates_order :
    (createOrder dbNoItems "nocart" 1 1 7 (fun _ => false)).response = .ok 1 ∧
    (createOrder dbNoItems "nocart" 1 1 7 (fun _ => false)).db.orders.length = 1 ∧
    ((createOrder dbNoItems "nocart" 1 1 7 (fun _ => false)).db.orders.map
        Order.total_amount) = [0] := by
  refine ⟨by decide, by decide, ?_⟩
  simp only [createOrder, findAllJoined, totalAmountJs, jsArrayFalsy, List.filterMap,
    List.foldl, List.map]

/-- C3.  The spec demands `total_amount` equal the exact decimal sum of
`quantity × unit price` with no floating-point drift; the source computes it
as `total += parseFloat(subtotal)` over IEEE-754 doubles.  For the cart with
unit prices 0.10 and 0.20 the stored total is the binary64 value
0.30000000000000004... (= 5404319552844596 / 2^54), while the exact sum of
the created OrderDetail rows' `quantity × unit_cost` is 3/10 — the two
differ, so the computation is not decimal-safe. -/
theorem c3_total_amount_float_drift :
    ((createOrder dbPair "abc" 1 1 7 (fun _ => false)).db.orders.map
        Order.total_amount) = [mkRat 5404319552844596 18014398509481984] ∧
    ((createOrder dbPair "abc" 1 1 7 (fun _ => false)).db.orderDetails.foldl
        (fun acc d => acc + (d.quantity : ℚ) * d.unit_cost) 0) = mkRat 3 10 ∧
    mkRat 5404319552844596 18014398509481984 ≠ mkRat 3 10 := by
  refine ⟨?_, ?_, by decide⟩
  · simp only [createOrder, findAllJoined, totalAmountJs, jsArrayFalsy, List.filterMap,
      List.foldl, List.map, Rat.add_def', ratMulMk, ratCastMk]
    decide
  · simp only [createOrder, findAllJoined, jsArrayFalsy, List.filterMap, List.foldl,
      List.map, List.enum, Rat.add_def', ratMulMk, ratCastMk]
    decide

/-- C4.  The spec says `clear(cart_id)` removes ALL rows of the cart id.
`emptyCart` does `findOne({ where: { cart_id } })` followed by
`cart.destroy()`, deleting exactly one row: on a cart holding two items,
one item survives the call — contradicting the controller's own doc
comment ("removes all items in a cart"). -/
theorem c4_emptyCart_leaves_rows :
    (emptyCart dbPair "abc").cartItems = [⟨2, "abc", 2, "Size,M", 1⟩] ∧
    (emptyCart dbNoItems "abc").cartItems = [] := by
  refine ⟨by decide, by decide⟩

/-- C9.  Checkout never touches the cart: on every invocation (with any
injected detail-save failures) the CartItem table afterwards is exactly the
CartItem table before, and the response carries only the new order id. -/
theorem c9_checkout_cart_frame (db : DB) (cart_id : String)
    (shipping_id tax_id customer_id : Nat) (detailSaveFails : Nat → Bool) :
    (createOrder db cart_id shipping_id tax_id customer_id detailSaveFails).db.cartItems =
      db.cartItems ∧
    (createOrder db cart_id shipping_id tax_id customer_id detailSaveFails).response =
      .ok db.nextOrderId := by
  refine ⟨rfl, rfl⟩

/-- C6.  Ownership of order details is enforced inside the retrieval query:
for every store, if some order row has the requested id but every order row
with that id belongs to a customer other than the caller, then
`getOrderSummary` returns the empty result — no OrderDetail row of that
order is ever produced, because the `required` inner join on
`Order.customer_id` filters them out in the query itself. -/
theorem c6_order_summary_ownership (db : DB) (oid cid : Nat)
    (_hex : ∃ o ∈ db.orders, o.order_id = oid)
    (hown : ∀ o ∈ db.orders, o.order_id = oid → o.customer_id ≠ cid) :
    getOrderSummary db oid cid = [] := by
  unfold getOrderSummary
  rw [List.map_eq_nil_iff, List.filter_eq_nil_iff]
  intro d _ hcond
  simp only [Bool.and_eq_true, beq_iff_eq, List.any_eq_true] at hcond
  obtain ⟨h1, o, hmem, h2, h3⟩ := hcond
  exact hown o hmem (h2.trans h1) h3

/-- A store holding order 1 owned by customer 5 with one detail row, used to
witness the ownership theorem for a caller with customer id 7. -/
def dbOrders : DB :=
  { products := []
    cartItems := []
    orders := [⟨1, 5, mkRat 1 1, 1, 1⟩]
    orderDetails := [⟨1, 1, 1, "Size,M", "p1", 1, mkRat 1 1⟩]
    nextItemId := 1
    nextOrderId := 2
    nextDetailId := 2 }

/-- Witness for C6: order 1 exists, belongs to customer 5, and the summary
query for customer 7 returns no rows. -/
theorem c6_order_summary_ownership_witness : getOrderSummary dbOrders 1 7 = [] :=
  c6_order_summary_ownership dbOrders 1 7 (by decide) (by decide)

/-- C10.  A token that carries a valid signature and has not expired but
whose embedded `data` field is falsy (missing/null or 0) is rejected by
`validateToken` with the `Invalid token` error; and validation succeeds
with customer id `cid` exactly when the token's `data` claim is `cid` and
`cid` is nonzero — so every successfully authenticated customer id is the
token's embedded, truthy `data` field. -/
theorem c10_falsy_token_rejected (env : TokenEnv) (now : Nat) (h tok : String)
    (claims : SignedClaims)
    (hsplit : (jsSplitSpace h).get? 1 = some tok) (htok : tok ≠ "")
    (hlookup : List.lookup tok env = some claims) (hexp : now < claims.exp) :
    ((claims.data = none ∨ claims.data = some 0) →
      validateToken env now (some h) = .error .invalidToken) ∧
    (∀ cid, validateToken env now (some h) = .ok cid ↔ (claims.data = some cid ∧ 0 < cid)) := by
  have hver : jwtVerify env now (some tok) = .ok claims := by
    simp [jwtVerify, htok, hlookup, Nat.not_le_of_lt hexp]
  have hval : validateToken env now (some h) =
      (match claims.data with
       | none => .error .invalidToken
       | some 0 => .error .invalidToken
       | some (n + 1) => .ok (n + 1)) := by
    simp only [validateToken, hsplit, hver]
  rw [hval]
  constructor
  · rintro (hd | hd) <;> rw [hd]
  · intro cid
    rcases hd : claims.data with _ | val
    · simp
    · match val with
      | 0 =>
        constructor
        · intro hok
          exact absurd hok (by simp)
        · rintro ⟨hcid, hpos⟩
          cases hcid
          exact absurd hpos (by decide)
      | n + 1 =>
        constructor
        · intro hok
          cases hok
          exact ⟨rfl, Nat.succ_pos n⟩
        · rintro ⟨hcid, h2⟩
          cases hcid
          rfl

/-- Signing environment with one valid unexpired token `"tok0"` whose data
field is 0 and one `"tok42"` whose data field is 42. -/
def envFixture : TokenEnv :=
  [("tok0", ⟨some 0, 100⟩), ("tok42", ⟨some 42, 100⟩)]

/-- Witness for C10: under `envFixture` at time 0, the falsy-data token is
rejected with `Invalid token` and the data-42 token authenticates
customer 42. -/
theorem c10_falsy_token_rejected_witness :
    validateToken envFixture 0 (some "Bearer tok0") = .error .invalidToken ∧
    validateToken envFixture 0 (some "Bearer tok42") = .ok 42 := by
  constructor
  · exact (c10_falsy_token_rejected envFixture 0 "Bearer tok0" "tok0" ⟨some 0, 100⟩
      (by decide) (by decide) (by decide) (by decide)).1 (Or.inr rfl)
  · exact ((c10_falsy_token_rejected envFixture 0 "Bearer tok42" "tok42" ⟨some 42, 100⟩
      (by decide) (by decide) (by decide) (by decide)).2 42).mpr ⟨rfl, by decide⟩

/-! Machinery for C5: how `addItemToCart` acts on the set of rows matching
one (cart_id, product_id, attributes) key. -/

/-- Well-formedness of the store that the autoincrement discipline of the
underlying schema guarantees: every cart row's primary key is below the
next value, and primary keys are distinct. -/
def DBInv (db : DB) : Prop :=
  (∀ c ∈ db.cartItems, c.item_id < db.nextItemId) ∧
    (db.cartItems.map CartItem.item_id).Nodup

/-- When exactly one element satisfies the predicate, `find?` returns it. -/
theorem find?_of_filter_singleton {p : CartItem → Bool} {l : List CartItem} {c : CartItem}
    (h : l.filter p = [c]) : l.find? p = some c := by
  induction l with
  | nil => exact absurd h (by simp)
  | cons a t ih =>
    by_cases hp : p a
    · rw [List.filter_cons_of_pos hp] at h
      rw [List.find?_cons_of_pos _ hp]
      exact congrArg some (List.cons.injEq .. |>.mp h).1
    · rw [List.filter_cons_of_neg (by simpa using hp)] at h
      rw [List.find?_cons_of_neg _ (by simpa using hp)]
      exact ih h

/-- Updating (by primary key) the unique row that matches the key leaves the
matching rows equal to just the updated row, provided primary keys are
distinct and the update still matches. -/
theorem filter_after_update {p : CartItem → Bool} {l : List CartItem} {c c2 : CartItem}
    (hid : (l.map CartItem.item_id).Nodup)
    (hf : l.filter p = [c]) (hcid : c2.item_id = c.item_id) (hp2 : p c2 = true) :
    (l.map (fun x => if x.item_id == c.item_id then c2 else x)).filter p = [c2] := by
  induction l with
  | nil => exact absurd hf (by simp)
  | cons a t ih =>
    rw [List.map_cons, List.nodup_cons] at hid
    by_cases hp : p a
    · rw [List.filter_cons_of_pos hp] at hf
      obtain ⟨hac, hrest⟩ := List.cons.injEq .. |>.mp hf
      subst hac
      have ht : t.map (fun x => if x.item_id == a.item_id then c2 else x) = t := by
        refine (List.map_congr_left ?_).trans (List.map_id t)
        intro x hx
        have hne : ¬(x.item_id == a.item_id) = true := by
          simp only [beq_iff_eq]
          intro hxe
          exact hid.1 (hxe ▸ List.mem_map_of_mem CartItem.item_id hx)
        rw [if_neg hne]
        rfl
      rw [List.map_cons, if_pos (by simp), ht, List.filter_cons_of_pos hp2, hrest]
    · rw [List.filter_cons_of_neg (by simpa using hp)] at hf
      have hcmem : c ∈ t := List.mem_of_mem_filter (hf ▸ List.mem_singleton_self c)
      have hane : ¬(a.item_id == c.item_id) = true := by
        simp only [beq_iff_eq]
        intro hae
        exact hid.1 (hae ▸ List.mem_map_of_mem CartItem.item_id hcmem)
      rw [List.map_cons, if_neg hane, List.filter_cons_of_neg (by simpa using hp)]
      exact ih hid.2 hf

/-- One `addItemToCart` call on a store whose key already has exactly one
row: the row's quantity is incremented in place (primary keys, products and
the autoincrement counter are untouched, and well-formedness is kept). -/
theorem addItem_step_found (db : DB) (cid : String) (pid : Nat) (attrs : String)
    (c : CartItem) (hinv : DBInv db)
    (hprod : db.products.any (fun p => p.product_id == pid) = true)
    (hfilter : db.cartItems.filter (matchKey cid pid attrs) = [c]) :
    DBInv (addItemToCart db cid pid attrs).1 ∧
    (addItemToCart db cid pid attrs).1.cartItems.filter (matchKey cid pid attrs) =
      [{ c with quantity := c.quantity + 1 }] ∧
    (addItemToCart db cid pid attrs).1.products = db.products := by
  have hfind : db.cartItems.find?
      (fun x => matchKey cid pid attrs x && db.products.any (fun p => p.product_id == pid)) =
      some c := by
    rw [hprod]
    simp only [Bool.and_true]
    exact find?_of_filter_singleton hfilter
  have hpc : matchKey cid pid attrs c = true := by
    have hmem : c ∈ db.cartItems.filter (matchKey cid pid attrs) :=
      hfilter ▸ List.mem_singleton_self c
    exact (List.mem_filter.mp hmem).2
  unfold addItemToCart
  rw [hfind]
  refine ⟨⟨?_, ?_⟩, ?_, rfl⟩
  · intro x hx
    obtain ⟨y, hy, hxy⟩ := List.mem_map.mp hx
    by_cases hb : (y.item_id == c.item_id) = true
    · rw [if_pos hb] at hxy
      have : c.item_id < db.nextItemId :=
        hinv.1 c (List.mem_of_mem_filter (hfilter ▸ List.mem_singleton_self c))
      exact hxy ▸ this
    · rw [if_neg hb] at hxy
      exact hxy ▸ hinv.1 y hy
  · have hsame : (db.cartItems.map
        (fun x => if x.item_id == c.item_id then { c with quantity := c.quantity + 1 } else x)).map
          CartItem.item_id = db.cartItems.map CartItem.item_id := by
      rw [List.map_map]
      refine List.map_congr_left ?_
      intro x _
      by_cases hb : (x.item_id == c.item_id) = true
      · simp only [Function.comp, if_pos hb]
        exact (beq_iff_eq .. |>.mp hb).symm
      · simp only [Function.comp, if_neg hb]
    exact hsame ▸ hinv.2
  · exact filter_after_update hinv.2 hfilter rfl hpc

/-- One `addItemToCart` call on a store with no row for the key (and an
existing product): `findCreateFind` inserts the defaults row with
quantity 1, which becomes the key's unique row. -/
theorem addItem_step_create (db : DB) (cid : String) (pid : Nat) (attrs : String)
    (hinv : DBInv db)
    (hprod : db.products.any (fun p => p.product_id == pid) = true)
    (hnone : db.cartItems.filter (matchKey cid pid attrs) = []) :
    DBInv (addItemToCart db cid pid attrs).1 ∧
    (addItemToCart db cid pid attrs).1.cartItems.filter (matchKey cid pid attrs) =
      [⟨db.nextItemId, cid, pid, attrs, 1⟩] ∧
    (addItemToCart db cid pid attrs).1.products = db.products := by
  have hfind : db.cartItems.find?
      (fun x => matchKey cid pid attrs x && db.products.any (fun p => p.product_id == pid)) =
      none := by
    rw [hprod]
    simp only [Bool.and_true]
    rw [List.find?_eq_none]
    intro x hx
    intro hpx
    have : x ∈ db.cartItems.filter (matchKey cid pid attrs) := List.mem_filter.mpr ⟨hx, hpx⟩
    rw [hnone] at this
    exact absurd this (List.not_mem_nil x)
  have hkey : matchKey cid pid attrs ⟨db.nextItemId, cid, pid, attrs, 1⟩ = true := by
    simp [matchKey]
  unfold addItemToCart
  rw [hfind]
  rw [if_pos hprod]
  refine ⟨⟨?_, ?_⟩, ?_, rfl⟩
  · intro x hx
    rcases List.mem_append.mp hx with hmem | hmem
    · exact Nat.lt_succ_of_lt (hinv.1 x hmem)
    · rw [List.mem_singleton.mp hmem]
      exact Nat.lt_succ_self db.nextItemId
  · rw [List.map_append, List.nodup_append]
    refine ⟨hinv.2, List.nodup_singleton _, ?_⟩
    intro i hi
    simp only [List.map_cons, List.map_nil, List.mem_singleton]
    intro hie
    obtain ⟨y, hy, hyi⟩ := List.mem_map.mp hi
    have hlt := hinv.1 y hy
    omega
  · rw [List.filter_append, hnone, List.filter_cons_of_pos hkey]
    rfl

/-- `k` further `addItemToCart` calls on a store whose key has exactly one
row add `k` to that row's quantity (and keep it unique). -/
theorem addItemN_increment (cid : String) (pid : Nat) (attrs : String) (k : Nat) :
    ∀ (db : DB) (c : CartItem), DBInv db →
      db.products.any (fun p => p.product_id == pid) = true →
      db.cartItems.filter (matchKey cid pid attrs) = [c] →
      ∃ c2, (addItemN cid pid attrs k db).cartItems.filter (matchKey cid pid attrs) = [c2] ∧
        c2.quantity = c.quantity + k := by
  induction k with
  | zero => exact fun db c _ _ hf => ⟨c, hf, rfl⟩
  | succ k ih =>
    intro db c hinv hprod hf
    obtain ⟨hinv2, hf2, hprodeq⟩ := addItem_step_found db cid pid attrs c hinv hprod hf
    have hprod2 : (addItemToCart db cid pid attrs).1.products.any
        (fun p => p.product_id == pid) = true := by rw [hprodeq]; exact hprod
    obtain ⟨c2, hc2, hq⟩ := ih (addItemToCart db cid pid attrs).1
      { c with quantity := c.quantity + 1 } hinv2 hprod2 hf2
    refine ⟨c2, hc2, ?_⟩
    rw [hq]
    show c.quantity + 1 + k = c.quantity + (k + 1)
    omega

/-- C5.  Sequential `addItemToCart` calls with one key behave as
create-then-increment: starting from a well-formed store that has the
product but no row for the (cart_id, product_id, attributes) key, after
`n ≥ 1` calls exactly one CartItem row matches the key and its quantity is
exactly `n` (no duplicate rows are ever created for the key). -/
theorem c5_addItem_quantity (db : DB) (cid : String) (pid : Nat) (attrs : String) (n : Nat)
    (hinv : DBInv db)
    (hprod : db.products.any (fun p => p.product_id == pid) = true)
    (hnone : db.cartItems.filter (matchKey cid pid attrs) = [])
    (hn : 1 ≤ n) :
    ((addItemN cid pid attrs n db).cartItems.filter (matchKey cid pid attrs)).map
      CartItem.quantity = [n] := by
  match n, hn with
  | m + 1, _ =>
    show ((addItemN cid pid attrs m (addItemToCart db cid pid attrs).1).cartItems.filter
      (matchKey cid pid attrs)).map CartItem.quantity = [m + 1]
    obtain ⟨hinv2, hf2, hprodeq⟩ := addItem_step_create db cid pid attrs hinv hprod hnone
    have hprod2 : (addItemToCart db cid pid attrs).1.products.any
        (fun p => p.product_id == pid) = true := by rw [hprodeq]; exact hprod
    obtain ⟨c2, hc2, hq⟩ := addItemN_increment cid pid attrs m
      (addItemToCart db cid pid attrs).1 ⟨db.nextItemId, cid, pid, attrs, 1⟩ hinv2 hprod2 hf2
    rw [hc2, List.map_cons, List.map_nil, hq]
    show [1 + m] = [m + 1]
    rw [Nat.add_comm]

/-- Witness for C5: three calls for the key (cart `"cart1"`, product 1,
attributes `"Size,M"`) against the store with product 1 and an empty cart
table leave exactly one matching row, of quantity 3. -/
theorem c5_addItem_quantity_witness :
    ((addItemN "cart1" 1 "Size,M" 3 dbNoItems).cartItems.filter
      (matchKey "cart1" 1 "Size,M")).map CartItem.quantity = [3] :=
  c5_addItem_quantity dbNoItems "cart1" 1 "Size,M" 3
    ⟨by decide, by decide⟩ (by decide) (by decide) (by decide)

/-! Machinery for C8: behavior of the modelled `split(' ')` on a well-formed
bearer header. -/

/-- Splitting a separator-free nonempty character list yields one group. -/
theorem splitChars_of_no_sep (sep : Char) (l : List Char) (hne : l ≠ []) (hs : sep ∉ l) :
    splitChars sep l = [l] := by
  induction l with
  | nil => exact absurd rfl hne
  | cons c cs ih =>
    simp only [splitChars]
    rw [if_neg (fun he => hs (by rw [← he]; exact List.mem_cons_self c cs))]
    by_cases hcs : cs = []
    · subst hcs
      rfl
    · rw [ih hcs (fun hm => hs (List.mem_cons_of_mem c hm))]
      rfl

/-- Prepending a non-separator character extends the first group. -/
theorem splitChars_cons_ne (sep c : Char) (cs g : List Char) (gs : List (List Char))
    (hc : ¬c = sep) (h : splitChars sep cs = g :: gs) :
    splitChars sep (c :: cs) = (c :: g) :: gs := by
  simp only [splitChars, h, if_neg hc]
  rfl

/-- Prepending the separator starts a fresh empty group. -/
theorem splitChars_cons_sep (sep : Char) (cs : List Char) :
    splitChars sep (sep :: cs) = [] :: splitChars sep cs := by
  simp [splitChars]

/-- `('Bearer ' + tok).split(' ')` is `["Bearer", tok]` whenever the signed
token string is nonempty and contains no space (as jwt base64url output
always is). -/
theorem jsSplitSpace_bearer (tok : String) (hne : tok.data ≠ []) (hs : ' ' ∉ tok.data) :
    jsSplitSpace ("Bearer " ++ tok) = ["Bearer", tok] := by
  have hdata : ("Bearer " ++ tok).data =
      'B' :: 'e' :: 'a' :: 'r' :: 'e' :: 'r' :: ' ' :: tok.data := by
    rw [String.data_append]
    rfl
  have h0 : splitChars ' ' tok.data = [tok.data] := splitChars_of_no_sep _ _ hne hs
  have h1 : splitChars ' ' (' ' :: tok.data) = [] :: [tok.data] := by
    rw [splitChars_cons_sep, h0]
  have h2 := splitChars_cons_ne ' ' 'r' _ _ _ (by decide) h1
  have h3 := splitChars_cons_ne ' ' 'e' _ _ _ (by decide) h2
  have h4 := splitChars_cons_ne ' ' 'r' _ _ _ (by decide) h3
  have h5 := splitChars_cons_ne ' ' 'a' _ _ _ (by decide) h4
  have h6 := splitChars_cons_ne ' ' 'e' _ _ _ (by decide) h5
  have h7 := splitChars_cons_ne ' ' 'B' _ _ _ (by decide) h6
  unfold jsSplitSpace
  rw [hdata, h7]
  rfl

/-- C8.  Token round-trip: for every prior signing history, customer id
`cid > 0`, issue time, configured TTL and space-free signed string, the
access token produced by `createToken` is accepted by `validateToken` with
result `cid` at every clock time before `issue + ttl`, and is rejected with
the caught `TokenExpiredError` at every clock time from `issue + ttl` on. -/
theorem c8_token_roundtrip (env : TokenEnv) (cid now ttl t : Nat) (tok : String)
    (hcid : 0 < cid) (hne : tok.data ≠ []) (hsp : ' ' ∉ tok.data) :
    (t < now + ttl →
      validateToken (createToken env cid now ttl tok).2 t
        (some (createToken env cid now ttl tok).1) = .ok cid) ∧
    (now + ttl ≤ t →
      validateToken (createToken env cid now ttl tok).2 t
        (some (createToken env cid now ttl tok).1) = .error (.jwt .expired)) := by
  have hsplit : (jsSplitSpace ("Bearer " ++ tok)).get? 1 = some tok := by
    rw [jsSplitSpace_bearer tok hne hsp]
    rfl
  have htokne : ¬tok = "" := fun he => hne (congrArg String.data he)
  have hlook : List.lookup tok ((tok, (⟨some cid, now + ttl⟩ : SignedClaims)) :: env) =
      some ⟨some cid, now + ttl⟩ := by
    simp [List.lookup]
  constructor
  · intro hvalid
    have hver : jwtVerify ((tok, (⟨some cid, now + ttl⟩ : SignedClaims)) :: env) t (some tok) =
        .ok ⟨some cid, now + ttl⟩ := by
      simp [jwtVerify, htokne, hlook, Nat.not_le_of_lt hvalid]
    obtain ⟨m, rfl⟩ : ∃ m, cid = m + 1 := ⟨cid - 1, by omega⟩
    show validateToken _ t (some ("Bearer " ++ tok)) = _
    simp only [validateToken, createToken, hsplit, hver]
  · intro hexp
    have hver : jwtVerify ((tok, (⟨some cid, now + ttl⟩ : SignedClaims)) :: env) t (some tok) =
        .error .expired := by
      simp [jwtVerify, htokne, hlook, hexp]
    show validateToken _ t (some ("Bearer " ++ tok)) = _
    simp only [validateToken, createToken, hsplit, hver]

/-- Witness for C8: token issued for customer 42 at time 0 with a one-day
TTL round-trips to 42 at time 0 and expires at time 86400. -/
theorem c8_token_roundtrip_witness :
    validateToken (createToken [] 42 0 86400 "tokX").2 0
      (some (createToken [] 42 0 86400 "tokX").1) = .ok 42 ∧
    validateToken (createToken [] 42 0 86400 "tokX").2 86400
      (some (createToken [] 42 0 86400 "tokX").1) = .error (.jwt .expired) :=
  ⟨(c8_token_roundtrip [] 42 0 86400 0 "tokX" (by decide) (by decide) (by decide)).1 (by decide),
   (c8_token_roundtrip [] 42 0 86400 86400 "tokX" (by decide) (by decide) (by decide)).2
     (by decide)⟩

/-- C7 counterexample.  On the order-summary route the source installs
`TokenController.validateToken` BEFORE the `[auth, auth2]` scheme rules, so
a request with no `user-key` credential fails with the caught generic
`TypeError` (from `undefined.split`), not with the `AUT_01`/`AUT_02`
InvalidScheme responses the claim requires for a missing credential. -/
theorem c7_order_route_missing_credential :
    orderRoutePipeline [] 0 none = .handledError .typeError ∧
    orderRoutePipeline [] 0 none ≠ .validationError "AUT_01" ∧
    orderRoutePipeline [] 0 none ≠ .validationError "AUT_02" := by
  refine ⟨rfl, by decide, by decide⟩

/-- C7 (amended).  On the customer routes, where the `[auth, auth2]` rules
run before token validation, a missing or empty credential fails with
`AUT_01`, a credential not of the bearer form fails with `AUT_02` (the
InvalidScheme class), a failing token check surfaces as the caught error
passed to the error middleware (the jwt invalid/expired errors or `Invalid
token`), and a passing one yields the embedded customer id.  On the
order-summary route token validation runs first: a missing credential
yields the caught `TypeError` instead of `AUT_01`, and any success implies
the token validated to that customer id.  Every failure is a value handed
to the middleware chain — nothing escapes unhandled. -/
theorem c7_auth_pipeline_amended (env : TokenEnv) (now : Nat) (userKey : Option String) :
    (ruleAuth userKey = false → rulesFirstPipeline env now userKey = .validationError "AUT_01") ∧
    (ruleAuth userKey = true → ruleAuth2 userKey = false →
      rulesFirstPipeline env now userKey = .validationError "AUT_02") ∧
    (∀ e, ruleAuth userKey = true → ruleAuth2 userKey = true →
      validateToken env now userKey = .error e →
      rulesFirstPipeline env now userKey = .handledError e) ∧
    (∀ cid, ruleAuth userKey = true → ruleAuth2 userKey = true →
      validateToken env now userKey = .ok cid →
      rulesFirstPipeline env now userKey = .success cid) ∧
    (userKey = none → orderRoutePipeline env now userKey = .handledError .typeError) ∧
    (∀ cid, orderRoutePipeline env now userKey = .success cid →
      validateToken env now userKey = .ok cid) := by
  refine ⟨?_, ?_, ?_, ?_, ?_, ?_⟩
  · intro h
    simp [rulesFirstPipeline, h]
  · intro h1 h2
    simp [rulesFirstPipeline, h1, h2]
  · intro e h1 h2 hv
    simp [rulesFirstPipeline, h1, h2, hv]
  · intro cid h1 h2 hv
    simp [rulesFirstPipeline, h1, h2, hv]
  · intro h
    subst h
    rfl
  · intro cid h
    unfold orderRoutePipeline at h
    cases hv : validateToken env now userKey with
    | error e =>
      rw [hv] at h
      exact absurd h (by simp)
    | ok c =>
      rw [hv] at h
      by_cases h1 : ruleAuth userKey = true
      · by_cases h2 : ruleAuth2 userKey = true
        · have hc : c = cid := by
            simpa [h1, h2] using h
          exact congrArg JsOutcome.ok hc
        · rw [Bool.not_eq_true] at h2
          simp [h1, h2] at h
      · rw [Bool.not_eq_true] at h1
        simp [h1] at h

/-- Witness for C7 (amended): each classification at a concrete request —
missing header, basic-scheme header, unknown signature, valid token, and
the order-route TypeError for a missing header. -/
theorem c7_auth_pipeline_amended_witness :
    rulesFirstPipeline [] 0 none = .validationError "AUT_01" ∧
    rulesFirstPipeline [] 0 (some "Basic abc") = .validationError "AUT_02" ∧
    rulesFirstPipeline [("tok", ⟨some 42, 100⟩)] 0 (some "Bearer nosuch") =
      .handledError (.jwt .invalidSignature) ∧
    rulesFirstPipeline [("tok", ⟨some 42, 100⟩)] 0 (some "Bearer tok") = .success 42 ∧
    orderRoutePipeline [] 0 none = .handledError .typeError :=
  ⟨(c7_auth_pipeline_amended [] 0 none).1 (by decide),
   (c7_auth_pipeline_amended [] 0 (some "Basic abc")).2.1 (by decide) (by decide),
   (c7_auth_pipeline_amended [("tok", ⟨some 42, 100⟩)] 0 (some "Bearer nosuch")).2.2.1
     (.jwt .invalidSignature) (by decide) (by decide) (by decide),
   (c7_auth_pipeline_amended [("tok", ⟨some 42, 100⟩)] 0 (some "Bearer tok")).2.2.2.1
     42 (by decide) (by decide) (by decide),
   (c7_auth_pipeline_amended [] 0 none).2.2.2.2.1 rfl⟩

end TuringBackend
